import Mathlib

/-!
Shallow embedding of the SCF energy-optimizer core of this repository:
the data model, the external collaborator interfaces and the iteration
engine of `src/scf_solver/EnergyOptimizer.cpp`, together with the
`Orbital` constructor of `src/qmfunctions/Orbital.cpp` and the
`NuclearPotential` constructor appended to the same source file.

Modelling conventions:
* machine doubles become rationals; the complex Fock matrix is real for
  the spin-paired time-independent case targeted by this solver, so it is
  modelled as a rational square matrix;
* an orbital (an opaque adaptive numerical function over 3D space) is an
  element of an arbitrary rational vector space `V`, so that the orbital
  algebra `orbital::add` is honest linear combination;
* the external collaborators that are out of scope for the spec (the Fock
  operator, the Helmholtz vector, the orbital-algebra library, MPI
  reduction, the dense-linear-algebra library) are fields of a `Collab`
  record: opaque functions with exactly the signatures the solver calls;
* `MSG_FATAL` / `MSG_ABORT` / `INVALID_ARG_ABORT` abort the process; a
  fallible call is embedded as `Except Fatal`.
-/

namespace MRChem

/-- Square rational matrix indexed by the orbital index (the entries of
`ComplexMatrix` are real in the spin-paired time-independent case). -/
abbrev Mat (n : ℕ) := Matrix (Fin (n + 1)) (Fin (n + 1)) ℚ

/-- Per-orbital vector of scalars (`DoubleVector`). -/
abbrev Vec (n : ℕ) := Fin (n + 1) → ℚ

/-- Orbital vector: an ordered set of `n + 1` orbitals, each an opaque
numerical function modelled as an element of a rational vector space. -/
abbrev OV (n : ℕ) (V : Type) := Fin (n + 1) → V

/-- The abort conditions reached through `MSG_FATAL` / `MSG_ABORT` /
`INVALID_ARG_ABORT` in the embedded sources. -/
inductive Fatal where
  | operNotSet
  | negativePrec
  | invalidArg
deriving DecidableEq, Repr

/-- Embedding of `orbital::add(a, X, b, Y)`: the pointwise linear
combination `a*X + b*Y` of two orbital vectors. -/
def ovAdd {n : ℕ} {V : Type} [AddCommGroup V] [Module ℚ V]
    (a : ℚ) (X : OV n V) (b : ℚ) (Y : OV n V) : OV n V :=
  fun i => a • X i + b • Y i

/-- Embedding of Eigen `maxCoeff()` on a per-orbital vector. -/
def vecMax {n : ℕ} (v : Vec n) : ℚ :=
  Finset.univ.sup' ⟨(0 : Fin (n + 1)), Finset.mem_univ _⟩ v

/-- Embedding of Eigen `norm()` (Euclidean norm): the square root of the
sum of squares, with the floating-point square root of the linear-algebra
library supplied as the opaque function `sq`. -/
def vecNorm {n : ℕ} (sq : ℚ → ℚ) (v : Vec n) : ℚ :=
  sq (∑ i, v i ^ 2)

/-- Integer square root (largest `k` with `k * k ≤ m`), by exhaustive
search so that the kernel can evaluate it. -/
def natSqrtLin (m : ℕ) : ℕ :=
  (List.range (m + 1)).foldr (fun k acc => if k * k ≤ m then max k acc else acc) 0

/-- Exact rational square root on perfect squares (numerator and
denominator both perfect squares), used as a concrete model of the
floating-point square root, which is exact on such inputs; the integer
case avoids rational division so that it evaluates by `rfl`. -/
def ratSqrt (q : ℚ) : ℚ :=
  if q.den = 1 then (natSqrtLin q.num.toNat : ℚ)
  else (natSqrtLin q.num.toNat : ℚ) / (natSqrtLin q.den : ℚ)

/-- Scalar symmetrization step of `EnergyOptimizer::calcFockMatrixUpdate`
(lines 279-281): average the update with its own transpose. -/
def symmetrize {n : ℕ} (M : Mat n) : Mat n :=
  (0.5 : ℚ) • (M + M.transpose)

/-- External collaborators of the SCF controller, i.e. everything the
`optimize` loop calls that is out of scope for the spec: each field is an
opaque function with the signature the C++ solver calls it with.
The field `fockNp1` models the pointer `this->fOper_np1`: `none` is the
null pointer, and the carried function gives the matrix elements
`fock_np1(bra, ket)` of the non-nuclear part of the n+1 Fock operator,
given the precision it was set up at and the (orthonormalized) orbital
set it was built on. -/
structure Collab (n : ℕ) (V : Type) where
  canonical : Bool
  maxIter : Int
  calcProperty : ℚ → OV n V → ℚ
  helmholtzArgs : ℚ → Mat n → OV n V → OV n V
  applyHelmholtz : ℚ → Vec n → OV n V → OV n V
  normO : V → ℚ
  reduceVec : Vec n → Vec n
  adjustPrec : ℚ → ℚ
  checkConvergence : ℚ → ℚ → Bool
  calcPropertyError : List ℚ → ℚ
  sqrtOp : ℚ → ℚ
  overlap : OV n V → OV n V → Mat n
  nuclearMat : OV n V → OV n V → Mat n
  fockExclNuc : OV n V → OV n V → Mat n
  fockNp1 : Option (ℚ → OV n V → OV n V → OV n V → Mat n)
  orthonormalize : ℚ → OV n V → OV n V
  lowdin : OV n V → Mat n
  multiplyMO : Mat n → OV n V → ℚ → OV n V
  diagonalize : ℚ → OV n V → Mat n → OV n V × Mat n
  localize : ℚ → OV n V → OV n V × Mat n

/-- Mutable state owned by the controller during `optimize()`: the current
orbital set and Fock matrix, the Helmholtz energy levels retained from the
last `H.setup`, the per-orbital errors stored on the orbitals
(`orbital::set_errors`), the append-only property and orbital-error
histories, and the current working precision. -/
structure SCFState (n : ℕ) (V : Type) where
  Phi : OV n V
  F : Mat n
  lambda : Vec n
  errVec : Vec n
  property : List ℚ
  orbError : List ℚ
  orbPrec : ℚ

section Solver

variable {n : ℕ} {V : Type} [AddCommGroup V] [Module ℚ V]

/-- Body of `EnergyOptimizer::calcFockMatrixUpdate` (lines 139-285), after
the null check on `fOper_np1` has passed; `fnp1` is the matrix-element
function of the n+1 Fock operator.  Mirrors the source line by line
(the commented-out distributed nuclear path and all printing is omitted);
the in-place `orbital::orthonormalize` of `Phi_np1` is reflected by using
the orthonormalized set as the defining orbitals of the n+1 operator, and
the final reassignment `Phi_np1 = add(1, Phi_n, 1, dPhi_n)` is returned as
the second component. -/
def calcFockMatrixUpdateBody (c : Collab n V)
    (fnp1 : ℚ → OV n V → OV n V → OV n V → Mat n)
    (orb_prec : ℚ) (lambda : Vec n) (fMat_n : Mat n)
    (Phi_n Phi_np1 dPhi_n : OV n V) : Mat n × OV n V :=
  let dS_1 := c.overlap dPhi_n Phi_n
  let dS_2 := c.overlap Phi_np1 dPhi_n
  let dV_n := c.nuclearMat Phi_np1 dPhi_n
  let F_n := c.fockExclNuc Phi_np1 Phi_n
  let Phi_ortho := c.orthonormalize orb_prec Phi_np1
  let F_1 := fnp1 orb_prec Phi_ortho Phi_n Phi_n
  let F_2 := fnp1 orb_prec Phi_ortho Phi_n dPhi_n
  let F_np1 := F_1 + F_2 + F_2.transpose
  let Phi_np1' := ovAdd 1 Phi_n 1 dPhi_n
  let L : Mat n := Matrix.diagonal lambda
  let dF_1 := dS_1 * fMat_n
  let dF_2 := dS_2 * L
  let dF_3 := F_np1 - F_n
  let dF_n := dV_n + dF_1 + dF_2 + dF_3
  ((0.5 : ℚ) • (dF_n + dF_n.transpose), Phi_np1')

/-- Embedding of `EnergyOptimizer::calcFockMatrixUpdate` (lines 136-286):
`MSG_FATAL("Operator not initialized")` on a null `fOper_np1` pointer is
the first statement, before any computation. -/
def calcFockMatrixUpdate (c : Collab n V)
    (orb_prec : ℚ) (lambda : Vec n) (fMat_n : Mat n)
    (Phi_n Phi_np1 dPhi_n : OV n V) : Except Fatal (Mat n × OV n V) :=
  match c.fockNp1 with
  | none => .error .operNotSet
  | some fnp1 =>
      .ok (calcFockMatrixUpdateBody c fnp1 orb_prec lambda fMat_n Phi_n Phi_np1 dPhi_n)

/-- One iteration of the `while` loop of `EnergyOptimizer::optimize`
(lines 70-122), given the incoming orbital error `errO` (the local
`err_o` of the previous round).  Returns the updated state, the outgoing
`err_o` and the recorded convergence boolean.  `adjustPrecision` updates
the solver's stored working precision and returns it; `H.getLambda()`
returns the energy levels passed to `H.setup`, i.e. the diagonal of the
current Fock matrix.  Timers, printing and `orbital::free` are omitted. -/
def scfCycle (c : Collab n V) (errO : ℚ) (s : SCFState n V) :
    Except Fatal (SCFState n V × ℚ × Bool) :=
  let orb_prec := c.adjustPrec errO
  let E := c.calcProperty orb_prec s.Phi
  let property' := s.property ++ [E]
  let lambda := fun i => s.F i i
  let L_n : Mat n := Matrix.diagonal lambda
  let Psi_n := c.helmholtzArgs orb_prec (L_n - s.F) s.Phi
  let Phi_np1 := c.applyHelmholtz orb_prec lambda Psi_n
  let dPhi_n := ovAdd 1 Phi_np1 (-1) s.Phi
  let errors := c.reduceVec fun i => c.normO (dPhi_n i)
  let err_o := vecMax errors
  let err_t := vecNorm c.sqrtOp errors
  let err_p := c.calcPropertyError property'
  let orbError' := s.orbError ++ [err_t]
  let converged := c.checkConvergence err_o err_p
  match calcFockMatrixUpdate c orb_prec lambda s.F s.Phi Phi_np1 dPhi_n with
  | .error e => .error e
  | .ok upd =>
      let F_np1 := s.F + upd.1
      let U := c.lowdin upd.2
      let Phi_n' := c.multiplyMO U upd.2 orb_prec
      let F_n' := U * F_np1 * U.conjTranspose
      .ok ({ Phi := Phi_n', F := F_n', lambda := lambda, errVec := errors,
             property := property', orbError := orbError', orbPrec := orb_prec },
           err_o, converged)

/-- The `while (nIter++ < maxIter or maxIter < 0)` loop of `optimize`
(lines 67-123): `nIter` is the iteration counter, `fuel` is the step index
of the potentially non-terminating loop (a run that would iterate forever
is observed through arbitrarily large fuel).  The `break` on the recorded
convergence boolean is the last statement of the body. -/
def scfLoop (c : Collab n V) (fuel : ℕ) (nIter : ℕ) (errO : ℚ)
    (s : SCFState n V) : Except Fatal (SCFState n V × Bool) :=
  match fuel with
  | 0 => .ok (s, false)
  | fuel' + 1 =>
      if (nIter : Int) < c.maxIter ∨ c.maxIter < 0 then
        match scfCycle c errO s with
        | .error e => .error e
        | .ok r =>
            if r.2.2 then .ok (r.1, true)
            else scfLoop c fuel' (nIter + 1) r.2.1 r.1
      else .ok (s, false)

/-- The canonicalize-or-localize branch used before and after the loop
(lines 60-65 and 125-130): diagonalize in canonical mode, otherwise
localize and rotate the Fock matrix by the returned transform. -/
def canonicalRotate (c : Collab n V) (prec : ℚ) (Phi : OV n V) (F : Mat n) :
    OV n V × Mat n :=
  if c.canonical then c.diagonalize prec Phi F
  else
    let q := c.localize prec Phi
    (q.1, q.2 * F * q.2.conjTranspose)

/-- State after applying `canonicalRotate` to the orbital set and Fock
matrix of a solver state; all other fields are untouched. -/
def rotateState (c : Collab n V) (prec : ℚ) (s : SCFState n V) : SCFState n V :=
  { s with Phi := (canonicalRotate c prec s.Phi s.F).1,
           F := (canonicalRotate c prec s.Phi s.F).2 }

/-- Embedding of `EnergyOptimizer::optimize` (lines 48-134): initial
canonicalization at the current working precision, the iteration loop,
and the single final re-canonicalization at one tenth of the working
precision left behind by the loop; returns the convergence boolean. -/
def optimize (c : Collab n V) (fuel : ℕ) (s0 : SCFState n V) :
    Except Fatal (SCFState n V × Bool) :=
  let errO := vecMax s0.errVec
  match scfLoop c fuel 0 errO (rotateState c s0.orbPrec s0) with
  | .error e => .error e
  | .ok r => .ok (rotateState c (r.1.orbPrec / 10) r.1, r.2)

/-- Working precision of one cycle: `adjustPrecision(err_o)` (line 73). -/
def cyclePrec (c : Collab n V) (errO : ℚ) : ℚ := c.adjustPrec errO

/-- Helmholtz energy levels of one cycle: the diagonal of the current Fock
matrix, as passed to `H.setup` (line 81). -/
def cycleLambda (s : SCFState n V) : Vec n := fun i => s.F i i

/-- Provisional next orbital set of one cycle: the Helmholtz operators
applied to the Helmholtz arguments (lines 84-87). -/
def cyclePhiNp1 (c : Collab n V) (errO : ℚ) (s : SCFState n V) : OV n V :=
  c.applyHelmholtz (cyclePrec c errO) (cycleLambda s)
    (c.helmholtzArgs (cyclePrec c errO)
      (Matrix.diagonal (cycleLambda s) - s.F) s.Phi)

/-- Orbital update set of one cycle: `add(1, Phi_np1, -1, Phi_n)`
(line 92). -/
def cycleDPhi (c : Collab n V) (errO : ℚ) (s : SCFState n V) : OV n V :=
  ovAdd 1 (cyclePhiNp1 c errO s) (-1) s.Phi

/-- Per-orbital residual norms of one cycle after the MPI reduction
(lines 95-96). -/
def cycleErrors (c : Collab n V) (errO : ℚ) (s : SCFState n V) : Vec n :=
  c.reduceVec fun i => c.normO (cycleDPhi c errO s i)

/-- Property history after the energy of this cycle has been appended
(line 78). -/
def cycleProperty (c : Collab n V) (errO : ℚ) (s : SCFState n V) : List ℚ :=
  s.property ++ [c.calcProperty (cyclePrec c errO) s.Phi]

/-- The convergence boolean recorded in the middle of one cycle
(line 103): a function of the maximal per-orbital residual norm and the
property error only, independent of the Fock-matrix update and the
rotation that follow it. -/
def cycleConv (c : Collab n V) (errO : ℚ) (s : SCFState n V) : Bool :=
  c.checkConvergence (vecMax (cycleErrors c errO s))
    (c.calcPropertyError (cycleProperty c errO s))

/-- The state at the end of one full cycle body: the convergence boolean
has been recorded, and the Fock-matrix update and the Löwdin rotation of
both the orbitals and the matrix have completed. -/
def cycleEndState (c : Collab n V)
    (fnp1 : ℚ → OV n V → OV n V → OV n V → Mat n)
    (errO : ℚ) (s : SCFState n V) : SCFState n V :=
  let orb_prec := cyclePrec c errO
  let upd := calcFockMatrixUpdateBody c fnp1 orb_prec (cycleLambda s) s.F
      s.Phi (cyclePhiNp1 c errO s) (cycleDPhi c errO s)
  let F_np1 := s.F + upd.1
  let U := c.lowdin upd.2
  { Phi := c.multiplyMO U upd.2 orb_prec,
    F := U * F_np1 * U.conjTranspose,
    lambda := cycleLambda s,
    errVec := cycleErrors c errO s,
    property := cycleProperty c errO s,
    orbError := s.orbError ++ [vecNorm c.sqrtOp (cycleErrors c errO s)],
    orbPrec := orb_prec }

/-- One full cycle as a transformer of the pair (incoming orbital error,
state), used to express repeated non-converging iterations. -/
def cycleIter (c : Collab n V)
    (fnp1 : ℚ → OV n V → OV n V → OV n V → Mat n)
    (p : ℚ × SCFState n V) : ℚ × SCFState n V :=
  (vecMax (cycleErrors c p.1 p.2), cycleEndState c fnp1 p.1 p.2)

/-- Spec-side description of the Fock-matrix update increment, transcribed
from the wording of section 4.2 of the spec (refinement target): the sum
of the explicitly recomputed nuclear-attraction matrix between the new
and delta orbitals, the overlap-weighted corrections dS1*F_old (with
dS1 the overlap of delta against old) and dS2*Lambda (with dS2 the overlap
of new against delta and Lambda the diagonal matrix of Helmholtz energy
levels), and the raw non-nuclear Fock-matrix difference, where the n+1
matrix is assembled as F1 + F2 + F2-transpose from F1 (old against old)
and F2 (old against delta) of the n+1 operator. -/
def DeltaFSpec (c : Collab n V)
    (fnp1 : ℚ → OV n V → OV n V → OV n V → Mat n)
    (orb_prec : ℚ) (lambda : Vec n) (fMat_n : Mat n)
    (Phi_n Phi_np1 dPhi_n : OV n V) : Mat n :=
  c.nuclearMat Phi_np1 dPhi_n
    + c.overlap dPhi_n Phi_n * fMat_n
    + c.overlap Phi_np1 dPhi_n * Matrix.diagonal lambda
    + (fnp1 orb_prec (c.orthonormalize orb_prec Phi_np1) Phi_n Phi_n
        + fnp1 orb_prec (c.orthonormalize orb_prec Phi_np1) Phi_n dPhi_n
        + (fnp1 orb_prec (c.orthonormalize orb_prec Phi_np1) Phi_n dPhi_n).transpose
        - c.fockExclNuc Phi_np1 Phi_n)

end Solver

/-- Configuration of the precision schedule: floor precision, starting
precision and the tightening coefficient. -/
structure SchedCfg where
  floorPrec : ℚ
  startPrec : ℚ
  coeff : ℚ
deriving DecidableEq, Repr

/-- Modelled from the spec: `SCF::adjustPrecision` is declared in the SCF
base class, whose definition is not among this repository's source files
(only the call site at `EnergyOptimizer.cpp:73` is).  Section 4.4 of the
spec describes it as a monotone clamped schedule of the observed orbital
error, never below the configured floor precision nor coarser than the
configured starting precision, and names the schedule
`max(floor, min(start, c * error))` as the canonical instance. -/
def adjustPrecision (cfg : SchedCfg) (err : ℚ) : ℚ :=
  max cfg.floorPrec (min cfg.startPrec (cfg.coeff * err))

namespace SPIN

/-- Modelled from the spec: the `SPIN` enumerators are declared in a
header that is not among this repository's source files; the spec names
the three values paired, alpha and beta, which take the default
consecutive C++ enum values 0, 1 and 2. -/
def Paired : Int := 0

def Alpha : Int := 1

def Beta : Int := 2

end SPIN

/-- The orbital meta data `orb_data` of `Orbital`: MPI rank, spin and
occupation. -/
structure OrbitalData where
  rank : Int
  spin : Int
  occ : ℚ
deriving DecidableEq, Repr

/-- Embedding of the constructor `Orbital::Orbital(int spin, double occ,
int rank)` (`Orbital.cpp` lines 52-61): a negative spin hits
`INVALID_ARG_ABORT`; a negative occupation is replaced through three
sequential spin tests (paired to 2, alpha to 1, beta to 1), and is left
unchanged when none of them matches. -/
def Orbital.make (spin : Int) (occ : ℚ) (rank : Int) : Except Fatal OrbitalData :=
  if spin < 0 then .error .invalidArg
  else if occ < 0 then
    if spin = SPIN.Paired then .ok ⟨rank, spin, 2⟩
    else if spin = SPIN.Alpha then .ok ⟨rank, spin, 1⟩
    else if spin = SPIN.Beta then .ok ⟨rank, spin, 1⟩
    else .ok ⟨rank, spin, occ⟩
  else .ok ⟨rank, spin, occ⟩

/-- A nucleus, reduced to the only datum the embedded constructor code
reads: its charge. -/
structure Nucleus where
  charge : ℚ
deriving DecidableEq, Repr

/-- The data assembled by the `NuclearPotential` constructor: the list of
(nucleus, smoothing) pairs pushed onto `this->func`, and the projection
precision scaled by the total charge. -/
structure NuclearPotentialData where
  func : List (Nucleus × ℚ)
  absPrec : ℚ
deriving DecidableEq, Repr

/-- Embedding of `chemistry::get_total_charge`. -/
def get_total_charge (nucs : List Nucleus) : ℚ :=
  (nucs.map Nucleus.charge).sum

/-- Embedding of the constructor `NuclearPotential::NuclearPotential`
(appended to `Orbital.cpp`, lines 251-305 of that file):
`MSG_ABORT("Negative projection precision")` on a negative projection
precision is the first statement; a negative smoothing precision defaults
to the projection precision; each nucleus gets the smoothing
`(0.00435 * smooth_prec / Z^5)^(1/3)`, with the cube root of the math
library supplied as the opaque function `cbrt`.  The multiresolution
projection and the MPI reduction/broadcast of the potential are external
collaborators and are not part of the returned data. -/
def NuclearPotential.make (cbrt : ℚ → ℚ) (nucs : List Nucleus)
    (proj_prec smooth_prec : ℚ) : Except Fatal NuclearPotentialData :=
  if proj_prec < 0 then .error .negativePrec
  else
    let smooth_prec := if smooth_prec < 0 then proj_prec else smooth_prec
    let cc := (0.00435 : ℚ) * smooth_prec
    let func := nucs.map fun nuc => (nuc, cbrt (cc / nuc.charge ^ (5 : ℕ)))
    let Z_tot := get_total_charge nucs
    .ok { func := func, absPrec := proj_prec / Z_tot }

/-- Concrete matrix-element function for the n+1 Fock operator used by the
concrete instances below. -/
def cexFnp1 : ℚ → OV 1 ℚ → OV 1 ℚ → OV 1 ℚ → Mat 1 := fun _ _ _ _ => 0

/-- A concrete collaborator instance over two orbitals whose orbital
content is a single rational amplitude: the Helmholtz step always returns
the orbital amplitudes (3, 4), every matrix-element oracle returns the
zero matrix, the convergence predicate is constantly false, and the
square root is the exact rational square root. -/
def cexCollab : Collab 1 ℚ where
  canonical := true
  maxIter := 2
  calcProperty := fun _ _ => 0
  helmholtzArgs := fun _ _ Phi => Phi
  applyHelmholtz := fun _ _ _ => ![3, 4]
  normO := fun v => v
  reduceVec := id
  adjustPrec := fun e => e
  checkConvergence := fun _ _ => false
  calcPropertyError := fun _ => 0
  sqrtOp := ratSqrt
  overlap := fun _ _ => 0
  nuclearMat := fun _ _ => 0
  fockExclNuc := fun _ _ => 0
  fockNp1 := some cexFnp1
  orthonormalize := fun _ Phi => Phi
  lowdin := fun _ => 1
  multiplyMO := fun _ Phi _ => Phi
  diagonalize := fun _ Phi F => (Phi, F)
  localize := fun _ Phi => (Phi, 1)

/-- The same collaborator instance with a null n+1 Fock operator. -/
def cexCollabNone : Collab 1 ℚ := { cexCollab with fockNp1 := none }

/-- The same collaborator instance with the negative maximum-iteration
sentinel. -/
def cexCollabNeg : Collab 1 ℚ := { cexCollab with maxIter := -1 }

/-- An alternative diagonalization collaborator. -/
def cexDiag : ℚ → OV 1 ℚ → Mat 1 → OV 1 ℚ × Mat 1 := fun _ Phi F => (Phi, F)

/-- An alternative localization collaborator. -/
def cexLoc : ℚ → OV 1 ℚ → OV 1 ℚ × Mat 1 := fun _ Phi => (Phi, 0)

/-- The concrete collaborator with its canonicalization collaborators
replaced, used to exhibit that the cycle body never calls them. -/
def cexCollabAlt : Collab 1 ℚ :=
  { cexCollab with
    diagonalize := cexDiag,
    localize := cexLoc }

/-- A concrete initial solver state: zero orbitals, zero Fock matrix,
empty histories, working precision 1. -/
def cexState : SCFState 1 ℚ where
  Phi := fun _ => 0
  F := 0
  lambda := fun _ => 0
  errVec := fun _ => 0
  property := []
  orbError := []
  orbPrec := 1

section Theorems

variable {n : ℕ} {V : Type} [AddCommGroup V] [Module ℚ V]

/-- The null check passed: `calcFockMatrixUpdate` computes its body. -/
lemma calcFockMatrixUpdate_some (c : Collab n V)
    (fnp1 : ℚ → OV n V → OV n V → OV n V → Mat n)
    (orb_prec : ℚ) (lambda : Vec n) (fMat_n : Mat n)
    (Phi_n Phi_np1 dPhi_n : OV n V) (hf : c.fockNp1 = some fnp1) :
    calcFockMatrixUpdate c orb_prec lambda fMat_n Phi_n Phi_np1 dPhi_n
      = .ok (calcFockMatrixUpdateBody c fnp1 orb_prec lambda fMat_n Phi_n Phi_np1 dPhi_n) := by
  unfold calcFockMatrixUpdate
  rw [hf]

/-- Averaging a matrix with its own transpose yields a symmetric matrix. -/
lemma symmetrize_transpose (M : Mat n) : (symmetrize M).transpose = symmetrize M := by
  unfold symmetrize
  rw [Matrix.transpose_smul, Matrix.transpose_add, Matrix.transpose_transpose,
    add_comm M.transpose M]

/-- One cycle with a non-null n+1 Fock operator: the recorded convergence
boolean is computed from the mid-cycle error data, and the returned state
is the fully completed cycle body. -/
lemma scfCycle_eq (c : Collab n V)
    (fnp1 : ℚ → OV n V → OV n V → OV n V → Mat n)
    (errO : ℚ) (s : SCFState n V) (hf : c.fockNp1 = some fnp1) :
    scfCycle c errO s
      = .ok (cycleEndState c fnp1 errO s, vecMax (cycleErrors c errO s), cycleConv c errO s) := by
  unfold scfCycle calcFockMatrixUpdate
  rw [hf]
  rfl

/-- C1: for every iteration, the Fock matrix update engine produces the
next Fock matrix additively as F_old plus the (symmetrized) sum of the
recomputed nuclear-attraction matrix between new and delta orbitals, the
overlap-weighted corrections dS1*F_old and dS2*Lambda, and the raw
non-nuclear Fock-matrix difference assembled as F1 + F2 + F2-transpose
minus the n-th non-nuclear matrix; the first conjunct exhibits the update
as exactly that sum before the final symmetrization, the second shows the
cycle forming the next Fock matrix as F_old + dF (then Löwdin rotated). -/
theorem fock_update_additive_decomposition (c : Collab n V)
    (fnp1 : ℚ → OV n V → OV n V → OV n V → Mat n)
    (orb_prec : ℚ) (lambda : Vec n) (fMat_n : Mat n)
    (Phi_n Phi_np1 dPhi_n : OV n V) (errO : ℚ) (s : SCFState n V)
    (hf : c.fockNp1 = some fnp1) :
    calcFockMatrixUpdate c orb_prec lambda fMat_n Phi_n Phi_np1 dPhi_n
      = .ok (symmetrize (DeltaFSpec c fnp1 orb_prec lambda fMat_n Phi_n Phi_np1 dPhi_n),
             ovAdd 1 Phi_n 1 dPhi_n)
    ∧ (cycleEndState c fnp1 errO s).F
      = c.lowdin (ovAdd 1 s.Phi 1 (cycleDPhi c errO s))
        * (s.F + symmetrize (DeltaFSpec c fnp1 (cyclePrec c errO) (cycleLambda s) s.F
            s.Phi (cyclePhiNp1 c errO s) (cycleDPhi c errO s)))
        * (c.lowdin (ovAdd 1 s.Phi 1 (cycleDPhi c errO s))).conjTranspose := by
  constructor
  · rw [calcFockMatrixUpdate_some c fnp1 orb_prec lambda fMat_n Phi_n Phi_np1 dPhi_n hf]
    rfl
  · rfl

/-- C1 witness at a concrete collaborator and state. -/
theorem fock_update_additive_decomposition_witness :
    cexCollab.fockNp1 = some cexFnp1
    ∧ (calcFockMatrixUpdate cexCollab 1 cexState.lambda cexState.F
          cexState.Phi cexState.Phi cexState.Phi
        = .ok (symmetrize (DeltaFSpec cexCollab cexFnp1 1 cexState.lambda cexState.F
                  cexState.Phi cexState.Phi cexState.Phi),
               ovAdd 1 cexState.Phi 1 cexState.Phi)
      ∧ (cycleEndState cexCollab cexFnp1 1 cexState).F
        = cexCollab.lowdin (ovAdd 1 cexState.Phi 1 (cycleDPhi cexCollab 1 cexState))
          * (cexState.F + symmetrize (DeltaFSpec cexCollab cexFnp1 (cyclePrec cexCollab 1)
              (cycleLambda cexState) cexState.F cexState.Phi
              (cyclePhiNp1 cexCollab 1 cexState) (cycleDPhi cexCollab 1 cexState)))
          * (cexCollab.lowdin (ovAdd 1 cexState.Phi 1 (cycleDPhi cexCollab 1 cexState))).conjTranspose) :=
  ⟨rfl, fock_update_additive_decomposition cexCollab cexFnp1 1 cexState.lambda cexState.F
      cexState.Phi cexState.Phi cexState.Phi 1 cexState rfl⟩

/-- C2: the update returned by the engine is symmetrized: it equals the
average of itself with its own transpose, and adding it to a symmetric
(real Hermitian) previous Fock matrix yields a symmetric next matrix. -/
theorem fock_update_symmetrized (c : Collab n V)
    (fnp1 : ℚ → OV n V → OV n V → OV n V → Mat n)
    (orb_prec : ℚ) (lambda : Vec n) (fMat_n : Mat n)
    (Phi_n Phi_np1 dPhi_n : OV n V) (dF : Mat n) (Phi_out : OV n V)
    (hf : c.fockNp1 = some fnp1)
    (hok : calcFockMatrixUpdate c orb_prec lambda fMat_n Phi_n Phi_np1 dPhi_n
            = .ok (dF, Phi_out)) :
    dF.transpose = dF
    ∧ dF = (0.5 : ℚ) • (dF + dF.transpose)
    ∧ (fMat_n.IsSymm → (fMat_n + dF).IsSymm) := by
  rw [calcFockMatrixUpdate_some c fnp1 orb_prec lambda fMat_n Phi_n Phi_np1 dPhi_n hf] at hok
  have hd : dF = symmetrize (DeltaFSpec c fnp1 orb_prec lambda fMat_n Phi_n Phi_np1 dPhi_n) :=
    (congrArg Prod.fst (Except.ok.inj hok)).symm
  subst hd
  refine ⟨symmetrize_transpose _, ?_, ?_⟩
  · rw [symmetrize_transpose, ← two_smul ℚ (symmetrize _), smul_smul]
    norm_num
  · intro hsym
    unfold Matrix.IsSymm at hsym ⊢
    rw [Matrix.transpose_add, hsym, symmetrize_transpose]

/-- C2 witness at a concrete collaborator and inputs. -/
theorem fock_update_symmetrized_witness :
    cexCollab.fockNp1 = some cexFnp1
    ∧ (calcFockMatrixUpdate cexCollab 1 cexState.lambda cexState.F
          cexState.Phi cexState.Phi cexState.Phi
        = .ok (symmetrize (DeltaFSpec cexCollab cexFnp1 1 cexState.lambda cexState.F
                  cexState.Phi cexState.Phi cexState.Phi),
               ovAdd 1 cexState.Phi 1 cexState.Phi))
    ∧ ((symmetrize (DeltaFSpec cexCollab cexFnp1 1 cexState.lambda cexState.F
          cexState.Phi cexState.Phi cexState.Phi)).transpose
        = symmetrize (DeltaFSpec cexCollab cexFnp1 1 cexState.lambda cexState.F
            cexState.Phi cexState.Phi cexState.Phi)
      ∧ symmetrize (DeltaFSpec cexCollab cexFnp1 1 cexState.lambda cexState.F
            cexState.Phi cexState.Phi cexState.Phi)
        = (0.5 : ℚ) • (symmetrize (DeltaFSpec cexCollab cexFnp1 1 cexState.lambda cexState.F
              cexState.Phi cexState.Phi cexState.Phi)
            + (symmetrize (DeltaFSpec cexCollab cexFnp1 1 cexState.lambda cexState.F
                cexState.Phi cexState.Phi cexState.Phi)).transpose)
      ∧ (cexState.F.IsSymm →
          (cexState.F + symmetrize (DeltaFSpec cexCollab cexFnp1 1 cexState.lambda cexState.F
              cexState.Phi cexState.Phi cexState.Phi)).IsSymm)) :=
  ⟨rfl, rfl,
    fock_update_symmetrized cexCollab cexFnp1 1 cexState.lambda cexState.F
      cexState.Phi cexState.Phi cexState.Phi _ _ rfl rfl⟩

/-- C3: the convergence predicate is evaluated mid-iteration from the
error data computed before the Fock-matrix update (first conjunct: the
recorded boolean is `cycleConv`, a function of the residual norms and the
property history only, while the returned state is the fully completed
cycle ending in the Löwdin rotation), and the loop branches on the
recorded boolean only at the end of the iteration body (second conjunct:
with the guard true, one loop step runs the whole cycle and only then
either exits with the completed state or recurses). -/
theorem convergence_recorded_exit_at_end (c : Collab n V)
    (fnp1 : ℚ → OV n V → OV n V → OV n V → Mat n)
    (fuel nIter : ℕ) (errO : ℚ) (s : SCFState n V)
    (r : SCFState n V × ℚ × Bool)
    (hf : c.fockNp1 = some fnp1)
    (hguard : (nIter : Int) < c.maxIter ∨ c.maxIter < 0)
    (hcyc : scfCycle c errO s = .ok r) :
    scfCycle c errO s
      = .ok (cycleEndState c fnp1 errO s, vecMax (cycleErrors c errO s), cycleConv c errO s)
    ∧ scfLoop c (fuel + 1) nIter errO s
      = (if r.2.2 then .ok (r.1, true) else scfLoop c fuel (nIter + 1) r.2.1 r.1) := by
  refine ⟨scfCycle_eq c fnp1 errO s hf, ?_⟩
  simp only [scfLoop]
  rw [if_pos hguard, hcyc]

/-- C3 witness at a concrete collaborator and state. -/
theorem convergence_recorded_exit_at_end_witness :
    cexCollab.fockNp1 = some cexFnp1
    ∧ (((0 : ℕ) : Int) < cexCollab.maxIter ∨ cexCollab.maxIter < 0)
    ∧ scfCycle cexCollab 1 cexState
        = .ok (cycleEndState cexCollab cexFnp1 1 cexState,
               vecMax (cycleErrors cexCollab 1 cexState), cycleConv cexCollab 1 cexState)
    ∧ (scfCycle cexCollab 1 cexState
        = .ok (cycleEndState cexCollab cexFnp1 1 cexState,
               vecMax (cycleErrors cexCollab 1 cexState), cycleConv cexCollab 1 cexState)
      ∧ scfLoop cexCollab (1 + 1) 0 1 cexState
        = (if (cycleEndState cexCollab cexFnp1 1 cexState,
               vecMax (cycleErrors cexCollab 1 cexState),
               cycleConv cexCollab 1 cexState).2.2
           then .ok ((cycleEndState cexCollab cexFnp1 1 cexState,
               vecMax (cycleErrors cexCollab 1 cexState),
               cycleConv cexCollab 1 cexState).1, true)
           else scfLoop cexCollab 1 (0 + 1)
               (cycleEndState cexCollab cexFnp1 1 cexState,
                vecMax (cycleErrors cexCollab 1 cexState),
                cycleConv cexCollab 1 cexState).2.1
               (cycleEndState cexCollab cexFnp1 1 cexState,
                vecMax (cycleErrors cexCollab 1 cexState),
                cycleConv cexCollab 1 cexState).1)) :=
  ⟨rfl, by decide, rfl,
    convergence_recorded_exit_at_end cexCollab cexFnp1 1 0 1 cexState
      (cycleEndState cexCollab cexFnp1 1 cexState,
       vecMax (cycleErrors cexCollab 1 cexState), cycleConv cexCollab 1 cexState)
      rfl (by decide) rfl⟩

/-- C4 (amended): for every completed iteration, the scalar appended to
the orbital-error sequence is the Euclidean norm of the per-orbital
residuals (the scalar total error), not their maximum; the maximum
per-orbital residual norm is the outgoing scalar orbital error used by the
convergence predicate and the next precision derivation, and the
per-orbital residual vector is recorded on the orbitals. -/
theorem orbital_error_records_total_error (c : Collab n V)
    (fnp1 : ℚ → OV n V → OV n V → OV n V → Mat n)
    (errO : ℚ) (s : SCFState n V)
    (hf : c.fockNp1 = some fnp1) :
    (scfCycle c errO s).toOption.map (fun r => r.1.orbError)
      = some (s.orbError ++ [vecNorm c.sqrtOp (cycleErrors c errO s)])
    ∧ (scfCycle c errO s).toOption.map (fun r => r.2.1)
      = some (vecMax (cycleErrors c errO s))
    ∧ (scfCycle c errO s).toOption.map (fun r => r.1.errVec)
      = some (cycleErrors c errO s) := by
  rw [scfCycle_eq c fnp1 errO s hf]
  exact ⟨rfl, rfl, rfl⟩

/-- C4 witness at a concrete collaborator and state. -/
theorem orbital_error_records_total_error_witness :
    cexCollab.fockNp1 = some cexFnp1
    ∧ ((scfCycle cexCollab 1 cexState).toOption.map (fun r => r.1.orbError)
        = some (cexState.orbError ++ [vecNorm cexCollab.sqrtOp (cycleErrors cexCollab 1 cexState)])
      ∧ (scfCycle cexCollab 1 cexState).toOption.map (fun r => r.2.1)
        = some (vecMax (cycleErrors cexCollab 1 cexState))
      ∧ (scfCycle cexCollab 1 cexState).toOption.map (fun r => r.1.errVec)
        = some (cycleErrors cexCollab 1 cexState)) :=
  ⟨rfl, orbital_error_records_total_error cexCollab cexFnp1 1 cexState rfl⟩

/-- C4 counterexample: at the concrete collaborator `cexCollab` and state
`cexState` the per-orbital residual norms are (3, 4); the scalar the cycle
appends to the orbital-error sequence is the Euclidean norm 5, while the
maximum per-orbital residual norm (recorded as the outgoing scalar orbital
error) is 4, so the appended scalar is not the maximum. -/
theorem orbital_error_append_cex :
    cycleErrors cexCollab 1 cexState = ![3, 4]
    ∧ (scfCycle cexCollab 1 cexState).toOption.map (fun r => r.1.orbError) = some [5]
    ∧ (scfCycle cexCollab 1 cexState).toOption.map (fun r => r.2.1) = some 4
    ∧ (5 : ℚ) ≠ 4 := by
  have herr : cycleErrors cexCollab 1 cexState = ![3, 4] := by
    funext i
    simp only [cycleErrors, cycleDPhi, cyclePhiNp1, cyclePrec, cycleLambda, ovAdd,
      cexCollab, cexState, id]
    fin_cases i <;> norm_num
  have hmax : vecMax (![3, 4] : Vec 1) = 4 := rfl
  have hnorm : vecNorm cexCollab.sqrtOp (![3, 4] : Vec 1) = 5 := by
    show ratSqrt (∑ i : Fin 2, (![3, 4] : Vec 1) i ^ 2) = 5
    have h25 : (∑ i : Fin 2, (![3, 4] : Vec 1) i ^ 2) = 25 := by
      rw [Fin.sum_univ_two]
      norm_num
    rw [h25]
    decide
  refine ⟨herr, ?_, ?_, by norm_num⟩
  · rw [scfCycle_eq cexCollab cexFnp1 1 cexState rfl]
    show some (cexState.orbError ++ [vecNorm cexCollab.sqrtOp (cycleErrors cexCollab 1 cexState)])
      = some [5]
    rw [herr, hnorm]
    rfl
  · rw [scfCycle_eq cexCollab cexFnp1 1 cexState rfl]
    show some (vecMax (cycleErrors cexCollab 1 cexState)) = some 4
    rw [herr, hmax]

/-- C5: the precision schedule is a monotone pure function of the observed
orbital error and the configuration, and its value always lies between the
configured floor precision and the configured starting precision. -/
theorem adjustPrecision_monotone_bounded (cfg : SchedCfg) (e e1 e2 : ℚ)
    (hc : 0 ≤ cfg.coeff) (hfs : cfg.floorPrec ≤ cfg.startPrec) (h12 : e1 < e2) :
    adjustPrecision cfg e1 ≤ adjustPrecision cfg e2
    ∧ cfg.floorPrec ≤ adjustPrecision cfg e
    ∧ adjustPrecision cfg e ≤ cfg.startPrec := by
  refine ⟨?_, le_max_left _ _, max_le hfs (min_le_left _ _)⟩
  exact max_le_max (le_refl _)
    (min_le_min (le_refl _) (mul_le_mul_of_nonneg_left h12.le hc))

/-- C5 witness at a concrete configuration and errors. -/
theorem adjustPrecision_monotone_bounded_witness :
    (0 : ℚ) ≤ (SchedCfg.mk 1 5 2).coeff
    ∧ (SchedCfg.mk 1 5 2).floorPrec ≤ (SchedCfg.mk 1 5 2).startPrec
    ∧ (0 : ℚ) < 1
    ∧ (adjustPrecision (SchedCfg.mk 1 5 2) 0 ≤ adjustPrecision (SchedCfg.mk 1 5 2) 1
      ∧ (SchedCfg.mk 1 5 2).floorPrec ≤ adjustPrecision (SchedCfg.mk 1 5 2) 3
      ∧ adjustPrecision (SchedCfg.mk 1 5 2) 3 ≤ (SchedCfg.mk 1 5 2).startPrec) :=
  ⟨by decide, by decide, by decide,
    adjustPrecision_monotone_bounded (SchedCfg.mk 1 5 2) 3 0 1
      (by decide) (by decide) (by decide)⟩

/-- C6: contract violations abort immediately and unrecoverably: a call to
the Fock-matrix update with the n+1 Fock operator unset is fatal before
any computation, and constructing the nuclear potential with a negative
projection precision aborts at once; neither path returns a result. -/
theorem contract_violations_abort (c : Collab n V)
    (orb_prec : ℚ) (lambda : Vec n) (fMat_n : Mat n)
    (Phi_n Phi_np1 dPhi_n : OV n V)
    (cbrt : ℚ → ℚ) (nucs : List Nucleus) (proj_prec smooth_prec : ℚ)
    (hnull : c.fockNp1 = none) (hneg : proj_prec < 0) :
    calcFockMatrixUpdate c orb_prec lambda fMat_n Phi_n Phi_np1 dPhi_n
      = .error .operNotSet
    ∧ NuclearPotential.make cbrt nucs proj_prec smooth_prec = .error .negativePrec := by
  constructor
  · unfold calcFockMatrixUpdate
    rw [hnull]
  · unfold NuclearPotential.make
    rw [if_pos hneg]

/-- C6 witness at a concrete collaborator with the operator unset and a
concrete negative precision. -/
theorem contract_violations_abort_witness :
    cexCollabNone.fockNp1 = none
    ∧ (-1 : ℚ) < 0
    ∧ (calcFockMatrixUpdate cexCollabNone 1 cexState.lambda cexState.F
          cexState.Phi cexState.Phi cexState.Phi = .error .operNotSet
      ∧ NuclearPotential.make id [] (-1) 1 = .error .negativePrec) :=
  ⟨rfl, by decide,
    contract_violations_abort cexCollabNone 1 cexState.lambda cexState.F
      cexState.Phi cexState.Phi cexState.Phi id [] (-1) 1 rfl (by decide)⟩

/-- Under a constantly-false convergence predicate, a loop started at
counter `k` with `j` remaining allowed iterations (and enough fuel) runs
exactly `j` full cycles and returns the last state with a false
convergence flag. -/
lemma scfLoop_cap (c : Collab n V)
    (fnp1 : ℚ → OV n V → OV n V → OV n V → Mat n)
    (hf : c.fockNp1 = some fnp1)
    (hcv : c.checkConvergence = fun _ _ => false) :
    ∀ (j k fuel : ℕ), j ≤ fuel → c.maxIter = ((k + j : ℕ) : Int) →
      ∀ (errO : ℚ) (s : SCFState n V),
        scfLoop c fuel k errO s = .ok (((cycleIter c fnp1)^[j] (errO, s)).2, false) := by
  intro j
  induction j with
  | zero =>
      intro k fuel hj hm errO s
      cases fuel with
      | zero => rfl
      | succ fuel' =>
          simp only [scfLoop]
          rw [if_neg]
          · rfl
          · rw [hm]
            omega
  | succ j ih =>
      intro k fuel hj hm errO s
      cases fuel with
      | zero => exact (Nat.not_succ_le_zero j hj).elim
      | succ fuel' =>
          have hconv : cycleConv c errO s = false := by
            simp [cycleConv, hcv]
          simp only [scfLoop]
          rw [if_pos, scfCycle_eq c fnp1 errO s hf]
          · show (if cycleConv c errO s then
                Except.ok (cycleEndState c fnp1 errO s, true)
              else scfLoop c fuel' (k + 1) (vecMax (cycleErrors c errO s))
                (cycleEndState c fnp1 errO s)) = _
            rw [hconv]
            show scfLoop c fuel' (k + 1) (vecMax (cycleErrors c errO s))
                (cycleEndState c fnp1 errO s) = _
            rw [Function.iterate_succ_apply]
            exact ih (k + 1) fuel' (Nat.succ_le_succ_iff.mp hj) (by rw [hm]; omega)
              (vecMax (cycleErrors c errO s)) (cycleEndState c fnp1 errO s)
          · exact Or.inl (by rw [hm]; omega)

/-- Each cycle appends exactly one entry to the property history. -/
lemma cycleIter_property_length (c : Collab n V)
    (fnp1 : ℚ → OV n V → OV n V → OV n V → Mat n) (m : ℕ) (p : ℚ × SCFState n V) :
    ((cycleIter c fnp1)^[m] p).2.property.length = p.2.property.length + m := by
  induction m generalizing p with
  | zero => rfl
  | succ m ih =>
      rw [Function.iterate_succ_apply, ih]
      show (p.2.property ++ [c.calcProperty (cyclePrec c p.1) p.2.Phi]).length + m
        = p.2.property.length + (m + 1)
      simp only [List.length_append, List.length_singleton]
      omega

/-- C7: non-convergence is not an abort: with a maximum iteration count of
`m` and a convergence predicate that never holds, `optimize` completes the
run after exactly `m` full cycles and returns the final state (orbitals,
matrix, and a property history grown by one entry per iteration) together
with `false`; and a negative maximum-iteration value is the run-until-
convergence sentinel: with it the loop guard always passes, so the loop
can never exit through the iteration cap. -/
theorem nonconvergence_completes_run (c c2 : Collab n V)
    (fnp1 : ℚ → OV n V → OV n V → OV n V → Mat n)
    (m fuel k : ℕ) (errO : ℚ) (s s0 : SCFState n V)
    (hf : c.fockNp1 = some fnp1)
    (hcv : c.checkConvergence = fun _ _ => false)
    (hm : c.maxIter = (m : Int)) (hfuel : m ≤ fuel)
    (hneg : c2.maxIter < 0) :
    optimize c fuel s0
      = .ok (rotateState c
          (((cycleIter c fnp1)^[m] (vecMax s0.errVec, rotateState c s0.orbPrec s0)).2.orbPrec / 10)
          ((cycleIter c fnp1)^[m] (vecMax s0.errVec, rotateState c s0.orbPrec s0)).2, false)
    ∧ ((cycleIter c fnp1)^[m] (vecMax s0.errVec, rotateState c s0.orbPrec s0)).2.property.length
      = s0.property.length + m
    ∧ scfLoop c2 (fuel + 1) k errO s
      = (match scfCycle c2 errO s with
         | .error e => .error e
         | .ok r => if r.2.2 then .ok (r.1, true) else scfLoop c2 fuel (k + 1) r.2.1 r.1) := by
  refine ⟨?_, ?_, ?_⟩
  · simp only [optimize]
    rw [scfLoop_cap c fnp1 hf hcv m 0 fuel hfuel (by rw [hm]; omega)
      (vecMax s0.errVec) (rotateState c s0.orbPrec s0)]
  · have h := cycleIter_property_length c fnp1 m
      (vecMax s0.errVec, rotateState c s0.orbPrec s0)
    rw [h]
    rfl
  · simp only [scfLoop]
    rw [if_pos (Or.inr hneg)]

/-- C7 witness at concrete collaborators, iteration cap 2 and fuel 2. -/
theorem nonconvergence_completes_run_witness :
    cexCollab.fockNp1 = some cexFnp1
    ∧ cexCollab.checkConvergence = (fun _ _ => false)
    ∧ cexCollab.maxIter = ((2 : ℕ) : Int)
    ∧ (2 : ℕ) ≤ 2
    ∧ cexCollabNeg.maxIter < 0
    ∧ (optimize cexCollab 2 cexState
        = .ok (rotateState cexCollab
            (((cycleIter cexCollab cexFnp1)^[2]
                (vecMax cexState.errVec, rotateState cexCollab cexState.orbPrec cexState)).2.orbPrec / 10)
            ((cycleIter cexCollab cexFnp1)^[2]
                (vecMax cexState.errVec, rotateState cexCollab cexState.orbPrec cexState)).2, false)
      ∧ ((cycleIter cexCollab cexFnp1)^[2]
            (vecMax cexState.errVec, rotateState cexCollab cexState.orbPrec cexState)).2.property.length
          = cexState.property.length + 2
      ∧ scfLoop cexCollabNeg (2 + 1) 0 1 cexState
        = (match scfCycle cexCollabNeg 1 cexState with
           | .error e => .error e
           | .ok r => if r.2.2 then .ok (r.1, true) else scfLoop cexCollabNeg 2 (0 + 1) r.2.1 r.1)) :=
  ⟨rfl, rfl, rfl, by decide, by decide,
    nonconvergence_completes_run cexCollab cexCollabNeg cexFnp1 2 2 0 1 cexState cexState
      rfl rfl rfl (by decide) (by decide)⟩

/-- C8: after the loop has delivered its final state `s1`, the controller
performs exactly one final re-canonicalization, at one tenth of the last
working precision `s1.orbPrec`, and returns (first conjunct); and the
iteration body never canonicalizes or localizes: one cycle computes the
same result under arbitrary replacement of the diagonalization and
localization collaborators, using only the symmetric Löwdin transform
(second conjunct). -/
theorem final_recanonicalization_once (c : Collab n V)
    (d : ℚ → OV n V → Mat n → OV n V × Mat n)
    (l : ℚ → OV n V → OV n V × Mat n)
    (fuel : ℕ) (errO : ℚ) (s0 s s1 : SCFState n V) (conv : Bool)
    (hloop : scfLoop c fuel 0 (vecMax s0.errVec) (rotateState c s0.orbPrec s0)
      = .ok (s1, conv)) :
    optimize c fuel s0 = .ok (rotateState c (s1.orbPrec / 10) s1, conv)
    ∧ scfCycle { c with diagonalize := d, localize := l } errO s = scfCycle c errO s := by
  constructor
  · simp only [optimize]
    rw [hloop]
  · rfl

/-- C8 witness: with zero fuel the loop returns its input state, and all
pieces are instantiated at the concrete collaborator and state. -/
theorem final_recanonicalization_once_witness :
    scfLoop cexCollab 0 0 (vecMax cexState.errVec) (rotateState cexCollab cexState.orbPrec cexState)
        = .ok (rotateState cexCollab cexState.orbPrec cexState, false)
    ∧ (optimize cexCollab 0 cexState
        = .ok (rotateState cexCollab ((rotateState cexCollab cexState.orbPrec cexState).orbPrec / 10)
            (rotateState cexCollab cexState.orbPrec cexState), false)
      ∧ scfCycle cexCollabAlt 1 cexState = scfCycle cexCollab 1 cexState) :=
  ⟨rfl, final_recanonicalization_once cexCollab cexDiag cexLoc 0 1 cexState cexState
      (rotateState cexCollab cexState.orbPrec cexState) false rfl⟩

/-- C9 (amended): a negative spin aborts the orbital constructor; on any
successful construction the metadata keeps the given rank and spin (hence
spin is nonnegative); a nonnegative occupation is stored unchanged; a
negative occupation is defaulted from the spin for the three named spin
values (paired to 2, alpha to 1, beta to 1), and for those spin values the
constructed occupation is nonnegative.  (For a nonnegative spin outside
the three named values a negative occupation is stored unchanged, which is
what the counterexample exhibits.) -/
theorem orbital_ctor_defaults (spin spin2 : Int) (occ : ℚ) (rank : Int)
    (od : OrbitalData)
    (hneg : spin2 < 0)
    (hok : Orbital.make spin occ rank = .ok od) :
    Orbital.make spin2 occ rank = .error .invalidArg
    ∧ od.rank = rank ∧ od.spin = spin ∧ 0 ≤ od.spin
    ∧ (0 ≤ occ → od.occ = occ)
    ∧ (occ < 0 → spin = SPIN.Paired → od.occ = 2)
    ∧ (occ < 0 → spin = SPIN.Alpha → od.occ = 1)
    ∧ (occ < 0 → spin = SPIN.Beta → od.occ = 1)
    ∧ ((spin = SPIN.Paired ∨ spin = SPIN.Alpha ∨ spin = SPIN.Beta) → 0 ≤ od.occ) := by
  have h2 : Orbital.make spin2 occ rank = .error .invalidArg := by
    unfold Orbital.make
    rw [if_pos hneg]
  refine ⟨h2, ?_⟩
  unfold Orbital.make at hok
  by_cases hs : spin < 0
  · rw [if_pos hs] at hok
    exact (Except.noConfusion hok)
  rw [if_neg hs] at hok
  push_neg at hs
  by_cases ho : occ < 0
  · rw [if_pos ho] at hok
    by_cases hp : spin = SPIN.Paired
    · rw [if_pos hp] at hok
      cases Except.ok.inj hok
      exact ⟨rfl, rfl, hs, fun h => absurd h ho.not_le, fun _ _ => rfl,
        fun _ ha => absurd (hp.symm.trans ha) (by decide),
        fun _ hb => absurd (hp.symm.trans hb) (by decide),
        fun _ => by norm_num⟩
    rw [if_neg hp] at hok
    by_cases ha : spin = SPIN.Alpha
    · rw [if_pos ha] at hok
      cases Except.ok.inj hok
      exact ⟨rfl, rfl, hs, fun h => absurd h ho.not_le, fun _ hp' => absurd hp' hp,
        fun _ _ => rfl,
        fun _ hb => absurd (ha.symm.trans hb) (by decide),
        fun _ => by norm_num⟩
    rw [if_neg ha] at hok
    by_cases hb : spin = SPIN.Beta
    · rw [if_pos hb] at hok
      cases Except.ok.inj hok
      exact ⟨rfl, rfl, hs, fun h => absurd h ho.not_le, fun _ hp' => absurd hp' hp,
        fun _ ha' => absurd ha' ha, fun _ _ => rfl,
        fun _ => by norm_num⟩
    rw [if_neg hb] at hok
    cases Except.ok.inj hok
    exact ⟨rfl, rfl, hs, fun _ => rfl, fun _ hp' => absurd hp' hp,
      fun _ ha' => absurd ha' ha, fun _ hb' => absurd hb' hb,
      fun h => absurd h (by
        push_neg
        exact ⟨hp, ha, hb⟩)⟩
  · rw [if_neg ho] at hok
    cases Except.ok.inj hok
    push_neg at ho
    exact ⟨rfl, rfl, hs, fun _ => rfl, fun h _ => absurd h ho.not_lt,
      fun h _ => absurd h ho.not_lt, fun h _ => absurd h ho.not_lt, fun _ => ho⟩

/-- C9 witness at a concrete successful construction (paired spin,
negative occupation defaulted to 2) and a concrete aborting one. -/
theorem orbital_ctor_defaults_witness :
    (-1 : Int) < 0
    ∧ Orbital.make 0 (-1) 5 = .ok ⟨5, 0, 2⟩
    ∧ (Orbital.make (-1) (-1) 5 = .error .invalidArg
      ∧ (OrbitalData.mk 5 0 2).rank = 5 ∧ (OrbitalData.mk 5 0 2).spin = 0
      ∧ (0 : Int) ≤ (OrbitalData.mk 5 0 2).spin
      ∧ ((0 : ℚ) ≤ -1 → (OrbitalData.mk 5 0 2).occ = -1)
      ∧ ((-1 : ℚ) < 0 → (0 : Int) = SPIN.Paired → (OrbitalData.mk 5 0 2).occ = 2)
      ∧ ((-1 : ℚ) < 0 → (0 : Int) = SPIN.Alpha → (OrbitalData.mk 5 0 2).occ = 1)
      ∧ ((-1 : ℚ) < 0 → (0 : Int) = SPIN.Beta → (OrbitalData.mk 5 0 2).occ = 1)
      ∧ (((0 : Int) = SPIN.Paired ∨ (0 : Int) = SPIN.Alpha ∨ (0 : Int) = SPIN.Beta)
          → (0 : ℚ) ≤ (OrbitalData.mk 5 0 2).occ)) :=
  ⟨by decide, rfl, orbital_ctor_defaults 0 (-1) (-1) 5 ⟨5, 0, 2⟩ (by decide) rfl⟩

/-- C9 counterexample: the constructor call with spin 3 (nonnegative but
not one of the named spin values) and occupation -1 succeeds and leaves
the negative occupation in place, violating the claimed invariant that
every successful construction has a nonnegative occupation. -/
theorem orbital_ctor_invariant_cex :
    Orbital.make 3 (-1) 0 = .ok ⟨0, 3, -1⟩ ∧ ¬ (0 : ℚ) ≤ (-1 : ℚ) :=
  ⟨rfl, by decide⟩

/-- C10: although the update engine orthonormalizes the provisional new
orbitals internally, on return the `orbitals_np1` slot holds the
non-orthogonal sum of the old and delta orbitals; in particular, when the
delta set is new minus old (as in the calling loop), the caller observes
exactly the provisional set it passed in. -/
theorem fock_update_restores_orbitals (c : Collab n V)
    (fnp1 : ℚ → OV n V → OV n V → OV n V → Mat n)
    (orb_prec : ℚ) (lambda : Vec n) (fMat_n : Mat n)
    (Phi_n Phi_np1 dPhi_n : OV n V)
    (hf : c.fockNp1 = some fnp1) :
    (calcFockMatrixUpdate c orb_prec lambda fMat_n Phi_n Phi_np1 dPhi_n).toOption.map
        (fun r => r.2) = some (ovAdd 1 Phi_n 1 dPhi_n)
    ∧ (dPhi_n = ovAdd 1 Phi_np1 (-1) Phi_n →
        (calcFockMatrixUpdate c orb_prec lambda fMat_n Phi_n Phi_np1 dPhi_n).toOption.map
          (fun r => r.2) = some Phi_np1) := by
  rw [calcFockMatrixUpdate_some c fnp1 orb_prec lambda fMat_n Phi_n Phi_np1 dPhi_n hf]
  constructor
  · rfl
  · intro h
    show some (ovAdd 1 Phi_n 1 dPhi_n) = some Phi_np1
    subst h
    congr 1
    funext i
    simp only [ovAdd, one_smul, neg_one_smul]
    abel

/-- C10 witness at a concrete collaborator and orbital sets. -/
theorem fock_update_restores_orbitals_witness :
    cexCollab.fockNp1 = some cexFnp1
    ∧ ((calcFockMatrixUpdate cexCollab 1 cexState.lambda cexState.F cexState.Phi cexState.Phi
          (ovAdd 1 cexState.Phi (-1) cexState.Phi)).toOption.map (fun r => r.2)
        = some (ovAdd 1 cexState.Phi 1 (ovAdd 1 cexState.Phi (-1) cexState.Phi))
      ∧ (ovAdd 1 cexState.Phi (-1) cexState.Phi = ovAdd 1 cexState.Phi (-1) cexState.Phi →
          (calcFockMatrixUpdate cexCollab 1 cexState.lambda cexState.F cexState.Phi cexState.Phi
            (ovAdd 1 cexState.Phi (-1) cexState.Phi)).toOption.map (fun r => r.2)
          = some cexState.Phi)) :=
  ⟨rfl, fock_update_restores_orbitals cexCollab cexFnp1 1 cexState.lambda cexState.F
      cexState.Phi cexState.Phi (ovAdd 1 cexState.Phi (-1) cexState.Phi) rfl⟩

end Theorems

end MRChem
